import Mathlib

/-!
Verification of the camera pose/velocity correction layers of
`nerfstudio/cameras/camera_optimizers.py`.

Scalars are modelled as rationals.  The external Lie-group exponential maps
`exp_map_SO3xR3` and `exp_map_SE3` (consumed from `nerfstudio.cameras.lie_groups`,
not part of the sources) are modelled as function parameters turning a
6-dimensional generator into a 3x4 transform, applied row-wise exactly as the
batched torch calls do.  The torch L2 norm used by the regularizer is likewise a
function parameter constrained by the properties of a norm that the statements
need.  Fallible python/torch operations (missing module attributes, out-of-range
advanced-index assignment, failed `assert`s) are modelled with `Option`, a
`none` result standing for a raised exception.
-/

namespace Nerfstudio

abbrev Vec3 := Fin 3 → ℚ
abbrev Vec6 := Fin 6 → ℚ
abbrev Mat3x4 := Fin 3 → Fin 4 → ℚ

def vec3Zero : Vec3 := fun _ => 0

def vec6Zero : Vec6 := fun _ => 0

/-- `torch.eye(4)[:3, :4]`: the 3x4 identity transform. -/
def identity3x4 : Mat3x4 := fun i j => if (i : ℕ) = (j : ℕ) then 1 else 0

/-- `torch.hstack` of two 3-vectors into a 6-vector (first argument first). -/
def hstack (t r : Vec3) : Vec6 := fun i =>
  if h : (i : ℕ) < 3 then t ⟨(i : ℕ), h⟩
  else r ⟨(i : ℕ) - 3, by have h6 := i.isLt; omega⟩

/-- The translation column `m[:, 3]` of a 3x4 transform. -/
def translationCol (m : Mat3x4) : Vec3 := fun i => m i 3

/-- The rotation block `m[:3, :3]` of a 3x4 transform applied to a direction
(the per-ray `torch.bmm` in `apply_to_raybundle`). -/
def rotApply (m : Mat3x4) (d : Vec3) : Vec3 := fun i =>
  m i 0 * d 0 + m i 1 * d 1 + m i 2 * d 2

/-- A 3x4 transform extended to a 4x4 homogeneous matrix by appending the row
`[0, 0, 0, 1]` (the `torch.cat` in `apply_to_camera`). -/
def toHom (a : Mat3x4) : Fin 4 → Fin 4 → ℚ := fun k j =>
  if h : (k : ℕ) < 3 then a ⟨(k : ℕ), h⟩ j else if (j : ℕ) = 3 then 1 else 0

/-- `torch.bmm(camera_to_worlds, hom(correction))`: a 3x4 matrix times the 4x4
homogeneous extension of a correction. -/
def composeExtrinsics (ext a : Mat3x4) : Mat3x4 := fun i j =>
  ext i 0 * toHom a 0 j + ext i 1 * toHom a 1 j + ext i 2 * toHom a 2 j + ext i 3 * toHom a 3 j

/-- Modelled from the spec: the pose-composition operator
(`nerfstudio.utils.poses.multiply`, whose source is not under `src/`) chaining
two 3x4 transforms: rotation product, first rotation applied to the second
translation plus the first translation. -/
def poseMultiply (a b : Mat3x4) : Mat3x4 := fun i j =>
  if h : (j : ℕ) < 3 then rotApply a (fun k => b k ⟨(j : ℕ), by omega⟩) i
  else rotApply a (translationCol b) i + translationCol a i

/-- Python dict assignment `d[k] = v`, dictionaries being modelled as partial
maps from string keys. -/
def dictSet {α : Type} (d : String → Option α) (k : String) (v : α) :
    String → Option α :=
  fun q => if q = k then some v else d q

/-- Advanced-index assignment `xs[mask] = v` on a batch: every listed position is
overwritten; an out-of-range position raises (`none`). -/
def setIndices (xs : List Mat3x4) (mask : List ℕ) (v : Mat3x4) : Option (List Mat3x4) :=
  match mask with
  | [] => some xs
  | i :: rest => if i < xs.length then setIndices (xs.set i v) rest v else none

/-- The `mode` literal of `CameraOptimizerConfig`. -/
inductive Mode
  | off
  | SO3xR3
  | SE3
  deriving DecidableEq

structure CameraOptimizerConfig where
  mode : Mode
  trans_l2_penalty : ℚ
  rot_l2_penalty : ℚ

structure CameraVelocityOptimizerConfig where
  enabled : Bool
  zero_initial_velocities : Bool
  linear_l2_penalty : ℚ
  angular_l2_penalty : ℚ

/-- A `Cameras` object as the two layers use it: its (batch-of-one) extrinsics,
the optional `metadata["cam_idx"]` entry (absent metadata and a metadata dict
without the key collapse to `none`), and the optional stored velocities. -/
structure Camera where
  camera_to_worlds : Mat3x4
  cam_idx : Option ℕ
  velocities : Option Vec6

structure RayBundle where
  origins : List Vec3
  directions : List Vec3
  camera_indices : List ℕ
  deriving DecidableEq

/-- The pose-correction layer.  The two parameter tensors exist (`some`) exactly
when `__init__` created them; their values are mutated externally by the
optimizer, hence theorems quantify over them. -/
structure CameraOptimizer where
  config : CameraOptimizerConfig
  num_cameras : ℕ
  non_trainable_camera_indices : Option (List ℕ)
  trans_adjustment : Option (ℕ → Vec3)
  rot_adjustment : Option (ℕ → Vec3)

/-- `CameraOptimizer.__init__`: zero-initialized parameters exactly when the
mode is not `off` (the `assert_never` arm is unreachable for the 3-variant
mode type). -/
def CameraOptimizer.init (config : CameraOptimizerConfig) (num_cameras : ℕ)
    (non_trainable_camera_indices : Option (List ℕ)) : CameraOptimizer :=
  if config.mode = Mode.off then
    ⟨config, num_cameras, non_trainable_camera_indices, none, none⟩
  else
    ⟨config, num_cameras, non_trainable_camera_indices,
      some (fun _ => vec3Zero), some (fun _ => vec3Zero)⟩

/-- `CameraOptimizer.forward`.  `indices` is the batch of camera indices; a
`none` result models a raised exception: the missing `trans_adjustment`
attribute in `off` mode inside the non-trainable block, the `outputs[0]` access
on an empty list, or an out-of-range advanced-index assignment. -/
def CameraOptimizer.forward (expSO3xR3 expSE3 : Vec6 → Mat3x4)
    (s : CameraOptimizer) (indices : List ℕ) : Option (List Mat3x4) := do
  let outputs : List (List Mat3x4) ←
    if s.config.mode = Mode.off then some []
    else if s.config.mode = Mode.SO3xR3 then do
      let t ← s.trans_adjustment
      let r ← s.rot_adjustment
      pure [indices.map (fun i => expSO3xR3 (hstack (t i) (r i)))]
    else do
      let t ← s.trans_adjustment
      let r ← s.rot_adjustment
      pure [indices.map (fun i => expSE3 (hstack (t i) (r i)))]
  let outputs ←
    match s.non_trainable_camera_indices with
    | none => pure outputs
    | some mask => do
      let _ ← s.trans_adjustment
      let o0 ← outputs.head?
      let o0 ← setIndices o0 mask identity3x4
      pure (o0 :: outputs.tail)
  match outputs with
  | [] => pure (List.replicate indices.length identity3x4)
  | o :: rest => pure (rest.foldl (fun a b => List.zipWith poseMultiply a b) o)

/-- `CameraOptimizer.apply_to_raybundle`: in an active mode the bundle's origins
and directions are updated from the correction matrices of the per-ray camera
indices; in `off` mode nothing is touched. -/
def CameraOptimizer.apply_to_raybundle (expSO3xR3 expSE3 : Vec6 → Mat3x4)
    (s : CameraOptimizer) (raybundle : RayBundle) : Option RayBundle :=
  if s.config.mode ≠ Mode.off then do
    let correction_matrices ←
      CameraOptimizer.forward expSO3xR3 expSE3 s raybundle.camera_indices
    pure { raybundle with
      origins := List.zipWith (fun o m => fun i => o i + translationCol m i)
        raybundle.origins correction_matrices
      directions := List.zipWith (fun d m => rotApply m d)
        raybundle.directions correction_matrices }
  else pure raybundle

/-- `CameraOptimizer.apply_to_camera`: the extrinsics pass through unchanged in
`off` mode or without a `cam_idx`; otherwise they are right-multiplied by the
homogeneous extension of the camera's correction. -/
def CameraOptimizer.apply_to_camera (expSO3xR3 expSE3 : Vec6 → Mat3x4)
    (s : CameraOptimizer) (camera : Camera) : Option Mat3x4 :=
  if s.config.mode = Mode.off then some camera.camera_to_worlds
  else
    match camera.cam_idx with
    | none => some camera.camera_to_worlds
    | some camera_idx => do
      let adj ← CameraOptimizer.forward expSO3xR3 expSE3 s [camera_idx]
      let a ← adj.head?
      pure (composeExtrinsics camera.camera_to_worlds a)

/-- `tensor.norm(dim=-1).mean()` over the `num_cameras` rows of a parameter
tensor, for a given row norm. -/
def meanNormOf (vecNorm : Vec3 → ℚ) (t : ℕ → Vec3) (n : ℕ) : ℚ :=
  (∑ i ∈ Finset.range n, vecNorm (t i)) / (n : ℚ)

/-- `CameraOptimizer.get_loss_dict`: in an active mode the regularizer value is
stored under `camera_opt_regularizer`; in `off` mode the dict is untouched. -/
def CameraOptimizer.get_loss_dict (vecNorm : Vec3 → ℚ) (s : CameraOptimizer)
    (loss_dict : String → Option ℚ) : Option (String → Option ℚ) :=
  if s.config.mode ≠ Mode.off then do
    let t ← s.trans_adjustment
    let r ← s.rot_adjustment
    pure (dictSet loss_dict "camera_opt_regularizer"
      (meanNormOf vecNorm t s.num_cameras * s.config.trans_l2_penalty
        + meanNormOf vecNorm r s.num_cameras * s.config.rot_l2_penalty))
  else pure loss_dict

/-- `CameraOptimizer.get_correction_matrices`: bulk evaluation on
`torch.arange(0, num_cameras)`. -/
def CameraOptimizer.get_correction_matrices (expSO3xR3 expSE3 : Vec6 → Mat3x4)
    (s : CameraOptimizer) : Option (List Mat3x4) :=
  CameraOptimizer.forward expSO3xR3 expSE3 s (List.range s.num_cameras)

/-- `list(self.parameters())` of the pose layer, in registration order
(translation first, rotation second). -/
def CameraOptimizer.parameters (s : CameraOptimizer) : List (ℕ → Vec3) :=
  s.trans_adjustment.toList ++ s.rot_adjustment.toList

/-- `CameraOptimizer.get_param_groups`: the two named groups in an active mode,
nothing in `off` mode; a failed `assert` is `none`. -/
def CameraOptimizer.get_param_groups (s : CameraOptimizer)
    (param_groups : String → Option (List (ℕ → Vec3))) :
    Option (String → Option (List (ℕ → Vec3))) :=
  let camera_opt_params := s.parameters
  if s.config.mode ≠ Mode.off then
    if 0 < camera_opt_params.length then
      some (dictSet (dictSet param_groups "camera_opt_trans" (camera_opt_params.take 1))
        "camera_opt_rot" (camera_opt_params.drop 1))
    else none
  else
    if camera_opt_params.length = 0 then some param_groups else none

/-- The velocity-correction layer. -/
structure CameraVelocityOptimizer where
  config : CameraVelocityOptimizerConfig
  num_cameras : ℕ
  non_trainable_camera_indices : Option (List ℕ)
  linear_velocity_adjustment : Option (ℕ → Vec3)
  angular_velocity_adjustment : Option (ℕ → Vec3)

/-- `CameraVelocityOptimizer.__init__`: zero-initialized parameters exactly when
`enabled`. -/
def CameraVelocityOptimizer.init (config : CameraVelocityOptimizerConfig)
    (num_cameras : ℕ) (non_trainable_camera_indices : Option (List ℕ)) :
    CameraVelocityOptimizer :=
  if config.enabled then
    ⟨config, num_cameras, non_trainable_camera_indices,
      some (fun _ => vec3Zero), some (fun _ => vec3Zero)⟩
  else
    ⟨config, num_cameras, non_trainable_camera_indices, none, none⟩

/-- The `init_velocities` base of `apply_to_camera_velocity`: zeros when
`zero_initial_velocities` is set or the camera has no `cam_idx`, otherwise the
camera's stored velocities, whose absence fails the `assert` (`none`). -/
def CameraVelocityOptimizer.velBase (s : CameraVelocityOptimizer) (camera : Camera) :
    Option Vec6 :=
  if s.config.zero_initial_velocities || camera.cam_idx.isNone then some vec6Zero
  else camera.velocities

/-- `CameraVelocityOptimizer.apply_to_camera_velocity`. -/
def CameraVelocityOptimizer.apply_to_camera_velocity (s : CameraVelocityOptimizer)
    (camera : Camera) : Option Vec6 :=
  match CameraVelocityOptimizer.velBase s camera with
  | none => none
  | some init_velocities =>
    if s.config.enabled = false then some init_velocities
    else
      match camera.cam_idx with
      | none => some init_velocities
      | some camera_idx =>
        match s.linear_velocity_adjustment, s.angular_velocity_adjustment with
        | some lin, some ang =>
          some (fun i => init_velocities i + hstack (lin camera_idx) (ang camera_idx) i)
        | _, _ => none

/-- `list(self.parameters())` of the velocity layer, in registration order
(linear first, angular second). -/
def CameraVelocityOptimizer.parameters (s : CameraVelocityOptimizer) : List (ℕ → Vec3) :=
  s.linear_velocity_adjustment.toList ++ s.angular_velocity_adjustment.toList

/-- `CameraVelocityOptimizer.get_param_groups`. -/
def CameraVelocityOptimizer.get_param_groups (s : CameraVelocityOptimizer)
    (param_groups : String → Option (List (ℕ → Vec3))) :
    Option (String → Option (List (ℕ → Vec3))) :=
  let vel_opt_params := s.parameters
  if s.config.enabled then
    if 0 < vel_opt_params.length then
      some (dictSet (dictSet param_groups "camera_velocity_opt_linear" (vel_opt_params.take 1))
        "camera_velocity_opt_angular" (vel_opt_params.drop 1))
    else none
  else
    if vel_opt_params.length = 0 then some param_groups else none

/-! ### Concrete instances used by witnesses and failing-input evaluations -/

/-- Modelled from the spec: the SO(3)xR3 exponential map
(`nerfstudio.cameras.lie_groups.exp_map_SO3xR3`, whose source is not under
`src/`) on a generator whose rotation component is zero — rotation and
translation are parameterized independently, the translation block is the first
three generator components unchanged, and the rotation exponential of the zero
generator is the identity.  Used only to instantiate the exponential-map
parameter on concrete inputs whose rotation generators are zero. -/
def expMapZeroRot (v : Vec6) : Mat3x4 := fun i j =>
  if (j : ℕ) = 3 then v ⟨(i : ℕ), by have h3 := i.isLt; omega⟩
  else if (i : ℕ) = (j : ℕ) then 1 else 0

/-- The first standard basis vector. -/
def e0vec : Vec3 := fun i => if (i : ℕ) = 0 then 1 else 0

def soCfg : CameraOptimizerConfig := ⟨Mode.SO3xR3, 1, 1⟩

def offCfg : CameraOptimizerConfig := ⟨Mode.off, 1, 1⟩

/-- Translation parameters that are nonzero exactly at camera 1. -/
def maskedParams : ℕ → Vec3 := fun c => if c = 1 then e0vec else vec3Zero

/-- Two cameras, camera 1 non-trainable, camera 1 with a learned translation. -/
def c1State : CameraOptimizer :=
  ⟨soCfg, 2, some [1], some maskedParams, some (fun _ => vec3Zero)⟩

/-- Two cameras, camera 0 non-trainable, camera 1 with a learned translation. -/
def c2State : CameraOptimizer :=
  ⟨soCfg, 2, some [0], some maskedParams, some (fun _ => vec3Zero)⟩

/-- A freshly constructed active pose layer (all parameters zero, no mask). -/
def sActive : CameraOptimizer := CameraOptimizer.init soCfg 2 none

def rb0 : RayBundle := ⟨[e0vec], [e0vec], [0]⟩

/-- The correction matrix `sActive` produces for any index. -/
def sActiveCorr : Mat3x4 := expMapZeroRot (hstack vec3Zero vec3Zero)

def velOnCfg : CameraVelocityOptimizerConfig := ⟨true, false, 1, 1⟩

def velOffCfg : CameraVelocityOptimizerConfig := ⟨false, true, 1, 1⟩

def velPlainCfg : CameraVelocityOptimizerConfig := ⟨false, false, 1, 1⟩

def sVelOn : CameraVelocityOptimizer := CameraVelocityOptimizer.init velOnCfg 2 none

def sVelOff : CameraVelocityOptimizer := CameraVelocityOptimizer.init velOffCfg 2 none

def sVelPlain : CameraVelocityOptimizer := CameraVelocityOptimizer.init velPlainCfg 2 none

/-- An enabled velocity layer whose non-trainable set contains camera 0. -/
def sVelMask : CameraVelocityOptimizer :=
  ⟨velOnCfg, 2, some [0], some (fun _ => vec3Zero), some (fun _ => vec3Zero)⟩

def vel6 : Vec6 := fun _ => 1

def camIdx0 : Camera := ⟨identity3x4, some 0, some vel6⟩

def camNoIdx : Camera := ⟨identity3x4, none, some vel6⟩

/-- A camera with an index but no stored velocities. -/
def camMissingVel : Camera := ⟨identity3x4, some 0, none⟩

def dEmpty : String → Option ℚ := fun _ => none

def pgEmpty : String → Option (List (ℕ → Vec3)) := fun _ => none

/-- A one-camera active pose layer with a nonzero translation row. -/
def sC7 : CameraOptimizer := ⟨soCfg, 1, none, some (fun _ => e0vec), some (fun _ => vec3Zero)⟩

/-- The L1 norm on 3-vectors: a computable row norm sharing the properties of
the torch L2 norm that the regularizer statements use (zero at zero,
nonnegative, positive away from zero). -/
def l1Norm (v : Vec3) : ℚ := |v 0| + |v 1| + |v 2|

/-- Shape invariant maintained by `CameraOptimizer.init` and by the external
in-place parameter updates: the parameter tensors exist iff the mode is
active. -/
def PoseParamsWf (s : CameraOptimizer) : Prop :=
  (s.config.mode = Mode.off →
    s.trans_adjustment.isNone = true ∧ s.rot_adjustment.isNone = true) ∧
  (s.config.mode ≠ Mode.off →
    s.trans_adjustment.isSome = true ∧ s.rot_adjustment.isSome = true)

instance (s : CameraOptimizer) : Decidable (PoseParamsWf s) :=
  inferInstanceAs (Decidable (
    (s.config.mode = Mode.off →
      s.trans_adjustment.isNone = true ∧ s.rot_adjustment.isNone = true) ∧
    (s.config.mode ≠ Mode.off →
      s.trans_adjustment.isSome = true ∧ s.rot_adjustment.isSome = true)))

/-- Shape invariant maintained by `CameraVelocityOptimizer.init`: the parameter
tensors exist iff the layer is enabled. -/
def VelParamsWf (s : CameraVelocityOptimizer) : Prop :=
  (s.config.enabled = false →
    s.linear_velocity_adjustment.isNone = true ∧
    s.angular_velocity_adjustment.isNone = true) ∧
  (s.config.enabled = true →
    s.linear_velocity_adjustment.isSome = true ∧
    s.angular_velocity_adjustment.isSome = true)

instance (s : CameraVelocityOptimizer) : Decidable (VelParamsWf s) :=
  inferInstanceAs (Decidable (
    (s.config.enabled = false →
      s.linear_velocity_adjustment.isNone = true ∧
      s.angular_velocity_adjustment.isNone = true) ∧
    (s.config.enabled = true →
      s.linear_velocity_adjustment.isSome = true ∧
      s.angular_velocity_adjustment.isSome = true)))

/-! ### Helper lemmas -/

theorem setIndices_length {xs ys : List Mat3x4} {mask : List ℕ} {v : Mat3x4}
    (h : setIndices xs mask v = some ys) : ys.length = xs.length := by
  induction mask generalizing xs with
  | nil =>
    simp [setIndices] at h
    simp [← h]
  | cons i rest ih =>
    rw [setIndices] at h
    split at h
    · simpa using ih h
    · exact absurd h (by simp)

theorem forward_length {e1 e2 : Vec6 → Mat3x4} {s : CameraOptimizer} {is : List ℕ}
    {M : List Mat3x4} (h : CameraOptimizer.forward e1 e2 s is = some M) :
    M.length = is.length := by
  obtain ⟨⟨mode, tp, rp⟩, N, mask, ta, ra⟩ := s
  cases mode <;> cases mask <;> cases ta <;> cases ra <;>
    simp_all [CameraOptimizer.forward, Option.bind_eq_some]
  all_goals first
    | simp [← h]
    | (have hl := setIndices_length h
       simp only [List.length_map] at hl
       exact hl)

theorem l1Norm_nonneg (v : Vec3) : 0 ≤ l1Norm v := by
  have h0 := abs_nonneg (v 0)
  have h1 := abs_nonneg (v 1)
  have h2 := abs_nonneg (v 2)
  rw [l1Norm]
  linarith

theorem l1Norm_zero : l1Norm vec3Zero = 0 := by
  simp [l1Norm, vec3Zero]

theorem l1Norm_pos (v : Vec3) (hv : v ≠ vec3Zero) : 0 < l1Norm v := by
  have hex : ∃ i, v i ≠ 0 := by
    by_contra hall
    push_neg at hall
    exact hv (funext fun i => hall i)
  obtain ⟨i, hi⟩ := hex
  rw [l1Norm]
  fin_cases i
  · have hp : 0 < |v 0| := abs_pos.mpr hi
    linarith [abs_nonneg (v 1), abs_nonneg (v 2)]
  · have hp : 0 < |v 1| := abs_pos.mpr hi
    linarith [abs_nonneg (v 0), abs_nonneg (v 2)]
  · have hp : 0 < |v 2| := abs_pos.mpr hi
    linarith [abs_nonneg (v 0), abs_nonneg (v 1)]

theorem meanNormOf_nonneg (vecNorm : Vec3 → ℚ) (t : ℕ → Vec3) (n : ℕ)
    (h : ∀ v, 0 ≤ vecNorm v) : 0 ≤ meanNormOf vecNorm t n := by
  exact div_nonneg (Finset.sum_nonneg fun i _ => h (t i)) (Nat.cast_nonneg n)

theorem meanNormOf_eq_zero (vecNorm : Vec3 → ℚ) (t : ℕ → Vec3) (n : ℕ)
    (hnorm0 : vecNorm vec3Zero = 0) (hz : ∀ i < n, t i = vec3Zero) :
    meanNormOf vecNorm t n = 0 := by
  rw [meanNormOf]
  rw [Finset.sum_eq_zero]
  · exact zero_div _
  · intro i hi
    rw [hz i (Finset.mem_range.mp hi), hnorm0]

theorem meanNormOf_pos (vecNorm : Vec3 → ℚ) (t : ℕ → Vec3) (n j : ℕ)
    (hnonneg : ∀ v, 0 ≤ vecNorm v) (hpos : ∀ v, v ≠ vec3Zero → 0 < vecNorm v)
    (hj : j < n) (hne : t j ≠ vec3Zero) : 0 < meanNormOf vecNorm t n := by
  rw [meanNormOf]
  have hn : 0 < n := Nat.lt_of_le_of_lt (Nat.zero_le j) hj
  refine div_pos ?_ (by exact_mod_cast hn)
  calc (0 : ℚ) < vecNorm (t j) := hpos _ hne
    _ ≤ ∑ i ∈ Finset.range n, vecNorm (t i) :=
      Finset.single_le_sum (fun i _ => hnonneg (t i)) (Finset.mem_range.mpr hj)

/-! ### Claim theorems -/

/-- Claim C1 (code bug): the non-trainable override in `CameraOptimizer.forward`
indexes batch positions, not camera indices.  With cameras 0 and 1, the
non-trainable set `[1]`, a nonzero learned translation for camera 1, and the
batch `[1, 0]`, the entry returned for the non-trainable camera 1 is its learned
non-identity correction, while the entry of the trainable camera 0 (sitting at
batch position 1) is the one forced to identity. -/
theorem forward_nontrainable_override_is_positional :
    CameraOptimizer.forward expMapZeroRot expMapZeroRot c1State [1, 0] =
      some [expMapZeroRot (hstack e0vec vec3Zero), identity3x4] ∧
    expMapZeroRot (hstack e0vec vec3Zero) ≠ identity3x4 := by decide

/-- Claim C2 (code bug): with a non-trainable set present, bulk and single-index
evaluation disagree.  For `c2State` (non-trainable set `[0]`, nonzero learned
translation for camera 1), `get_correction_matrices` has camera 1's learned
correction as entry 1, but `forward` on the one-element batch `[1]` returns the
identity, because the positional override hits batch position 0. -/
theorem get_correction_matrices_vs_single_eval_mismatch :
    CameraOptimizer.get_correction_matrices expMapZeroRot expMapZeroRot c2State =
      some [identity3x4, expMapZeroRot (hstack e0vec vec3Zero)] ∧
    CameraOptimizer.forward expMapZeroRot expMapZeroRot c2State [1] =
      some [identity3x4] ∧
    expMapZeroRot (hstack e0vec vec3Zero) ≠ identity3x4 := by decide

/-- Claim C3 (code bug): in `off` mode `forward` returns one identity per index
only when no non-trainable index set was supplied.  When one was supplied (even
an empty one), the call raises instead (`none`): the non-trainable block reads
the `trans_adjustment` attribute, which `off` mode never creates. -/
theorem forward_off_mode_with_mask_raises :
    CameraOptimizer.forward expMapZeroRot expMapZeroRot
      (CameraOptimizer.init offCfg 2 (some [])) [0, 1] = none ∧
    CameraOptimizer.forward expMapZeroRot expMapZeroRot
      (CameraOptimizer.init offCfg 2 none) [0, 1] =
        some [identity3x4, identity3x4] := by decide

/-- Claim C4: `apply_to_raybundle` is a no-op in `off` mode; in an active mode,
when the corrections of the bundle's camera indices evaluate to `M`, each ray's
new origin is its old origin plus the translation column of its correction, and
its new direction is the rotation block of its correction applied to its old
direction. -/
theorem apply_to_raybundle_spec (e1 e2 : Vec6 → Mat3x4) (s : CameraOptimizer)
    (rb : RayBundle)
    (hlen1 : rb.origins.length = rb.camera_indices.length)
    (hlen2 : rb.directions.length = rb.camera_indices.length) :
    (s.config.mode = Mode.off →
      CameraOptimizer.apply_to_raybundle e1 e2 s rb = some rb) ∧
    (∀ M, s.config.mode ≠ Mode.off →
      CameraOptimizer.forward e1 e2 s rb.camera_indices = some M →
      ∃ rb', CameraOptimizer.apply_to_raybundle e1 e2 s rb = some rb' ∧
        rb'.camera_indices = rb.camera_indices ∧
        rb'.origins.length = rb.origins.length ∧
        rb'.directions.length = rb.directions.length ∧
        (∀ (p : ℕ) (o : Vec3) (m : Mat3x4), rb.origins[p]? = some o → M[p]? = some m →
          rb'.origins[p]? = some (fun i => o i + translationCol m i)) ∧
        (∀ (p : ℕ) (d : Vec3) (m : Mat3x4), rb.directions[p]? = some d → M[p]? = some m →
          rb'.directions[p]? = some (rotApply m d))) := by
  constructor
  · intro hmode
    simp [CameraOptimizer.apply_to_raybundle, hmode]
  · intro M hmode hM
    have hMlen : M.length = rb.camera_indices.length := forward_length hM
    refine ⟨{ rb with
        origins := List.zipWith (fun o m => fun i => o i + translationCol m i) rb.origins M,
        directions := List.zipWith (fun d m => rotApply m d) rb.directions M },
      ?_, rfl, ?_, ?_, ?_, ?_⟩
    · simp [CameraOptimizer.apply_to_raybundle, hmode, hM]
    · simp only [List.length_zipWith]
      omega
    · simp only [List.length_zipWith]
      omega
    · intro p o m ho hm
      show (List.zipWith (fun o m => fun i => o i + translationCol m i) rb.origins M)[p]? = _
      rw [List.getElem?_zipWith']
      simp [ho, hm]
    · intro p d m hd hm
      show (List.zipWith (fun d m => rotApply m d) rb.directions M)[p]? = _
      rw [List.getElem?_zipWith']
      simp [hd, hm]

/-- Witness for claim C4's theorem: the `off` layer leaves a bundle untouched,
and a freshly constructed active layer transforms `rb0` as stated. -/
theorem apply_to_raybundle_spec_witness :
    (CameraOptimizer.apply_to_raybundle expMapZeroRot expMapZeroRot
      (CameraOptimizer.init offCfg 2 none) rb0 = some rb0) ∧
    (∃ rb', CameraOptimizer.apply_to_raybundle expMapZeroRot expMapZeroRot
        sActive rb0 = some rb' ∧
      rb'.camera_indices = rb0.camera_indices ∧
      rb'.origins.length = rb0.origins.length ∧
      rb'.directions.length = rb0.directions.length ∧
      (∀ (p : ℕ) (o : Vec3) (m : Mat3x4), rb0.origins[p]? = some o →
        [sActiveCorr][p]? = some m →
        rb'.origins[p]? = some (fun i => o i + translationCol m i)) ∧
      (∀ (p : ℕ) (d : Vec3) (m : Mat3x4), rb0.directions[p]? = some d →
        [sActiveCorr][p]? = some m →
        rb'.directions[p]? = some (rotApply m d))) := by
  constructor
  · exact (apply_to_raybundle_spec expMapZeroRot expMapZeroRot
      (CameraOptimizer.init offCfg 2 none) rb0 (by decide) (by decide)).1 (by decide)
  · exact (apply_to_raybundle_spec expMapZeroRot expMapZeroRot sActive rb0
      (by decide) (by decide)).2 [sActiveCorr] (by decide) (by decide)

/-- Claim C5: `apply_to_camera` returns the extrinsics unchanged when the mode
is `off` or the camera lacks a `cam_idx`; otherwise, when the camera's single
correction evaluates to `A`, it returns the extrinsics right-multiplied by the
4x4 homogeneous extension of `A`. -/
theorem apply_to_camera_spec (e1 e2 : Vec6 → Mat3x4) (s : CameraOptimizer)
    (camera : Camera) :
    (s.config.mode = Mode.off →
      CameraOptimizer.apply_to_camera e1 e2 s camera = some camera.camera_to_worlds) ∧
    (camera.cam_idx = none →
      CameraOptimizer.apply_to_camera e1 e2 s camera = some camera.camera_to_worlds) ∧
    (∀ (idx : ℕ) (A : Mat3x4), s.config.mode ≠ Mode.off → camera.cam_idx = some idx →
      CameraOptimizer.forward e1 e2 s [idx] = some [A] →
      CameraOptimizer.apply_to_camera e1 e2 s camera =
        some (composeExtrinsics camera.camera_to_worlds A)) := by
  refine ⟨?_, ?_, ?_⟩
  · intro hmode
    simp [CameraOptimizer.apply_to_camera, hmode]
  · intro hidx
    by_cases hmode : s.config.mode = Mode.off <;>
      simp [CameraOptimizer.apply_to_camera, hmode, hidx]
  · intro idx A hmode hidx hfwd
    simp [CameraOptimizer.apply_to_camera, hmode, hidx, hfwd]

/-- Witness for claim C5's theorem: pass-through for the `off` layer and for a
camera without an index, composition for an active layer. -/
theorem apply_to_camera_spec_witness :
    (CameraOptimizer.apply_to_camera expMapZeroRot expMapZeroRot
      (CameraOptimizer.init offCfg 2 none) camIdx0 = some camIdx0.camera_to_worlds) ∧
    (CameraOptimizer.apply_to_camera expMapZeroRot expMapZeroRot sActive camNoIdx =
      some camNoIdx.camera_to_worlds) ∧
    (CameraOptimizer.apply_to_camera expMapZeroRot expMapZeroRot sActive camIdx0 =
      some (composeExtrinsics camIdx0.camera_to_worlds sActiveCorr)) := by
  refine ⟨?_, ?_, ?_⟩
  · exact (apply_to_camera_spec expMapZeroRot expMapZeroRot
      (CameraOptimizer.init offCfg 2 none) camIdx0).1 (by decide)
  · exact (apply_to_camera_spec expMapZeroRot expMapZeroRot sActive camNoIdx).2.1 rfl
  · exact (apply_to_camera_spec expMapZeroRot expMapZeroRot sActive camIdx0).2.2
      0 sActiveCorr (by decide) rfl (by decide)

/-- Claim C6: `apply_to_camera_velocity` first determines a base 6-vector (zero
when `zero_initial_velocities` is set or the camera lacks a `cam_idx`, otherwise
the camera's stored velocities); the base is returned unchanged when the layer
is disabled or the camera lacks an index; otherwise the concatenation of the
linear and angular adjustment rows of the camera's index is added.  In
particular, with `zero_initial_velocities` set and the layer disabled, the
result is exactly the zero 6-vector for every camera. -/
theorem apply_to_camera_velocity_spec (s : CameraVelocityOptimizer) (camera : Camera) :
    (CameraVelocityOptimizer.velBase s camera =
      (if s.config.zero_initial_velocities = true ∨ camera.cam_idx = none
        then some vec6Zero else camera.velocities)) ∧
    (∀ (b : Vec6), s.config.enabled = false →
      CameraVelocityOptimizer.velBase s camera = some b →
      CameraVelocityOptimizer.apply_to_camera_velocity s camera = some b) ∧
    (∀ (b : Vec6), camera.cam_idx = none →
      CameraVelocityOptimizer.velBase s camera = some b →
      CameraVelocityOptimizer.apply_to_camera_velocity s camera = some b) ∧
    (∀ (idx : ℕ) (lin ang : ℕ → Vec3) (b : Vec6), s.config.enabled = true →
      camera.cam_idx = some idx →
      s.linear_velocity_adjustment = some lin →
      s.angular_velocity_adjustment = some ang →
      CameraVelocityOptimizer.velBase s camera = some b →
      CameraVelocityOptimizer.apply_to_camera_velocity s camera =
        some (fun i => b i + hstack (lin idx) (ang idx) i)) ∧
    (s.config.zero_initial_velocities = true → s.config.enabled = false →
      CameraVelocityOptimizer.apply_to_camera_velocity s camera = some vec6Zero) := by
  refine ⟨?_, ?_, ?_, ?_, ?_⟩
  · rw [CameraVelocityOptimizer.velBase]
    rcases hz : s.config.zero_initial_velocities <;>
      rcases hidx : camera.cam_idx <;> simp [hz, hidx]
  · intro b hen hbase
    simp [CameraVelocityOptimizer.apply_to_camera_velocity, hbase, hen]
  · intro b hidx hbase
    by_cases hen : s.config.enabled = false <;>
      simp [CameraVelocityOptimizer.apply_to_camera_velocity, hbase, hen, hidx]
  · intro idx lin ang b hen hidx hlin hang hbase
    simp [CameraVelocityOptimizer.apply_to_camera_velocity, hbase, hen, hidx, hlin, hang]
  · intro hz hen
    have hbase : CameraVelocityOptimizer.velBase s camera = some vec6Zero := by
      simp [CameraVelocityOptimizer.velBase, hz]
    simp [CameraVelocityOptimizer.apply_to_camera_velocity, hbase, hen]

/-- Witness for claim C6's theorem at concrete layers and cameras. -/
theorem apply_to_camera_velocity_spec_witness :
    (CameraVelocityOptimizer.velBase sVelOn camIdx0 =
      (if sVelOn.config.zero_initial_velocities = true ∨ camIdx0.cam_idx = none
        then some vec6Zero else camIdx0.velocities)) ∧
    (CameraVelocityOptimizer.apply_to_camera_velocity sVelOff camIdx0 = some vec6Zero) ∧
    (CameraVelocityOptimizer.apply_to_camera_velocity sVelOn camNoIdx = some vec6Zero) ∧
    (CameraVelocityOptimizer.apply_to_camera_velocity sVelOn camIdx0 =
      some (fun i => vel6 i +
        hstack ((fun _ => vec3Zero) 0) ((fun _ => vec3Zero) 0) i)) := by
  refine ⟨?_, ?_, ?_, ?_⟩
  · exact (apply_to_camera_velocity_spec sVelOn camIdx0).1
  · exact (apply_to_camera_velocity_spec sVelOff camIdx0).2.2.2.2 rfl rfl
  · exact (apply_to_camera_velocity_spec sVelOn camNoIdx).2.2.1 vec6Zero rfl (by decide)
  · exact (apply_to_camera_velocity_spec sVelOn camIdx0).2.2.2.1 0
      (fun _ => vec3Zero) (fun _ => vec3Zero) vel6 rfl rfl rfl rfl (by decide)

/-- Claim C7: in an active mode `get_loss_dict` stores under
`camera_opt_regularizer` the mean row norm of the translation generators times
the translation penalty plus the mean row norm of the rotation generators times
the rotation penalty; that value is zero when all parameter rows are zero and
strictly positive once any row is nonzero, for positive penalties; in `off`
mode the dict is left untouched. -/
theorem get_loss_dict_regularizer_spec (vecNorm : Vec3 → ℚ) (s : CameraOptimizer)
    (d : String → Option ℚ)
    (hnorm0 : vecNorm vec3Zero = 0)
    (hnonneg : ∀ v, 0 ≤ vecNorm v)
    (hpos : ∀ v, v ≠ vec3Zero → 0 < vecNorm v)
    (hp1 : 0 < s.config.trans_l2_penalty)
    (hp2 : 0 < s.config.rot_l2_penalty) :
    (s.config.mode = Mode.off →
      CameraOptimizer.get_loss_dict vecNorm s d = some d) ∧
    (∀ (t r : ℕ → Vec3), s.config.mode ≠ Mode.off →
      s.trans_adjustment = some t → s.rot_adjustment = some r →
      CameraOptimizer.get_loss_dict vecNorm s d =
        some (dictSet d "camera_opt_regularizer"
          (meanNormOf vecNorm t s.num_cameras * s.config.trans_l2_penalty
            + meanNormOf vecNorm r s.num_cameras * s.config.rot_l2_penalty)) ∧
      ((∀ i < s.num_cameras, t i = vec3Zero ∧ r i = vec3Zero) →
        meanNormOf vecNorm t s.num_cameras * s.config.trans_l2_penalty
          + meanNormOf vecNorm r s.num_cameras * s.config.rot_l2_penalty = 0) ∧
      (∀ j < s.num_cameras, t j ≠ vec3Zero ∨ r j ≠ vec3Zero →
        0 < meanNormOf vecNorm t s.num_cameras * s.config.trans_l2_penalty
          + meanNormOf vecNorm r s.num_cameras * s.config.rot_l2_penalty)) := by
  constructor
  · intro hmode
    simp [CameraOptimizer.get_loss_dict, hmode]
  · intro t r hmode ht hr
    refine ⟨?_, ?_, ?_⟩
    · simp [CameraOptimizer.get_loss_dict, hmode, ht, hr]
    · intro hz
      rw [meanNormOf_eq_zero vecNorm t s.num_cameras hnorm0 (fun i hi => (hz i hi).1)]
      rw [meanNormOf_eq_zero vecNorm r s.num_cameras hnorm0 (fun i hi => (hz i hi).2)]
      ring
    · intro j hj hne
      have hmt : 0 ≤ meanNormOf vecNorm t s.num_cameras :=
        meanNormOf_nonneg vecNorm t s.num_cameras hnonneg
      have hmr : 0 ≤ meanNormOf vecNorm r s.num_cameras :=
        meanNormOf_nonneg vecNorm r s.num_cameras hnonneg
      rcases hne with hne | hne
      · have h1 : 0 < meanNormOf vecNorm t s.num_cameras * s.config.trans_l2_penalty :=
          mul_pos (meanNormOf_pos vecNorm t s.num_cameras j hnonneg hpos hj hne) hp1
        have h2 : 0 ≤ meanNormOf vecNorm r s.num_cameras * s.config.rot_l2_penalty :=
          mul_nonneg hmr (le_of_lt hp2)
        linarith
      · have h1 : 0 ≤ meanNormOf vecNorm t s.num_cameras * s.config.trans_l2_penalty :=
          mul_nonneg hmt (le_of_lt hp1)
        have h2 : 0 < meanNormOf vecNorm r s.num_cameras * s.config.rot_l2_penalty :=
          mul_pos (meanNormOf_pos vecNorm r s.num_cameras j hnonneg hpos hj hne) hp2
        linarith

/-- Witness for claim C7's theorem: the `off` layer adds nothing, and a
one-camera layer with a nonzero translation row stores a positive value. -/
theorem get_loss_dict_regularizer_spec_witness :
    (CameraOptimizer.get_loss_dict l1Norm (CameraOptimizer.init offCfg 2 none) dEmpty =
      some dEmpty) ∧
    (CameraOptimizer.get_loss_dict l1Norm sC7 dEmpty =
      some (dictSet dEmpty "camera_opt_regularizer"
        (meanNormOf l1Norm (fun _ => e0vec) sC7.num_cameras * sC7.config.trans_l2_penalty
          + meanNormOf l1Norm (fun _ => vec3Zero) sC7.num_cameras *
            sC7.config.rot_l2_penalty))) ∧
    (0 < meanNormOf l1Norm (fun _ => e0vec) sC7.num_cameras * sC7.config.trans_l2_penalty
      + meanNormOf l1Norm (fun _ => vec3Zero) sC7.num_cameras *
        sC7.config.rot_l2_penalty) := by
  have hoff := (get_loss_dict_regularizer_spec l1Norm (CameraOptimizer.init offCfg 2 none)
    dEmpty l1Norm_zero l1Norm_nonneg l1Norm_pos (by decide) (by decide)).1 (by decide)
  have hall := (get_loss_dict_regularizer_spec l1Norm sC7 dEmpty
    l1Norm_zero l1Norm_nonneg l1Norm_pos (by decide) (by decide)).2
    (fun _ => e0vec) (fun _ => vec3Zero) (by decide) rfl rfl
  exact ⟨hoff, hall.1, hall.2.2 0 (by decide) (Or.inl (by decide))⟩

/-- Claim C8: `apply_to_camera_velocity` fails its assertion exactly when
`zero_initial_velocities` is unset, the camera has a `cam_idx`, and the stored
velocities are absent — independently of the `enabled` flag, because the base is
computed before the enabled check; in every other case it returns normally. -/
theorem apply_to_camera_velocity_assert_iff (s : CameraVelocityOptimizer)
    (camera : Camera)
    (hwf : s.config.enabled = true →
      s.linear_velocity_adjustment.isSome = true ∧
      s.angular_velocity_adjustment.isSome = true) :
    CameraVelocityOptimizer.apply_to_camera_velocity s camera = none ↔
      (s.config.zero_initial_velocities = false ∧ camera.cam_idx.isSome = true ∧
        camera.velocities = none) := by
  obtain ⟨⟨en, zi, lp, ap⟩, N, mask, la, aa⟩ := s
  rcases en <;> rcases zi <;> rcases hidx : camera.cam_idx <;>
    rcases hv : camera.velocities <;>
    simp_all [CameraVelocityOptimizer.apply_to_camera_velocity,
      CameraVelocityOptimizer.velBase, hidx, hv]
  all_goals
    obtain ⟨hla, haa⟩ := hwf
    obtain ⟨lin, rfl⟩ := Option.isSome_iff_exists.mp hla
    obtain ⟨ang, rfl⟩ := Option.isSome_iff_exists.mp haa
    simp

/-- Witness for claim C8's theorem: a disabled layer with
`zero_initial_velocities` unset still fails on a camera with an index but no
stored velocities. -/
theorem apply_to_camera_velocity_assert_iff_witness :
    CameraVelocityOptimizer.apply_to_camera_velocity sVelPlain camMissingVel = none := by
  exact (apply_to_camera_velocity_assert_iff sVelPlain camMissingVel (by decide)).mpr
    ⟨rfl, rfl, rfl⟩

/-- Claim C9: `get_param_groups` contributes nothing when the pose mode is `off`
(resp. the velocity layer is disabled), and otherwise adds exactly two singleton
(hence non-empty) named groups, the first holding exactly the translation
(resp. linear) parameter tensor and the second exactly the rotation
(resp. angular) parameter tensor; for a layer with the constructed parameter
shape the internal count assertions never fire (the calls return `some`). -/
theorem get_param_groups_spec (s : CameraOptimizer) (sv : CameraVelocityOptimizer)
    (pg pgv : String → Option (List (ℕ → Vec3)))
    (hP : PoseParamsWf s) (hV : VelParamsWf sv) :
    (s.config.mode = Mode.off → s.parameters = [] ∧
      CameraOptimizer.get_param_groups s pg = some pg) ∧
    (∀ (t r : ℕ → Vec3), s.config.mode ≠ Mode.off → s.trans_adjustment = some t →
      s.rot_adjustment = some r →
      s.parameters = [t, r] ∧
      CameraOptimizer.get_param_groups s pg =
        some (dictSet (dictSet pg "camera_opt_trans" [t]) "camera_opt_rot" [r])) ∧
    (sv.config.enabled = false → sv.parameters = [] ∧
      CameraVelocityOptimizer.get_param_groups sv pgv = some pgv) ∧
    (∀ (lin ang : ℕ → Vec3), sv.config.enabled = true →
      sv.linear_velocity_adjustment = some lin →
      sv.angular_velocity_adjustment = some ang →
      sv.parameters = [lin, ang] ∧
      CameraVelocityOptimizer.get_param_groups sv pgv =
        some (dictSet (dictSet pgv "camera_velocity_opt_linear" [lin])
          "camera_velocity_opt_angular" [ang])) := by
  refine ⟨?_, ?_, ?_, ?_⟩
  · intro hmode
    obtain ⟨hta, hra⟩ := hP.1 hmode
    rw [Option.isNone_iff_eq_none] at hta hra
    have hpar : s.parameters = [] := by
      simp [CameraOptimizer.parameters, hta, hra]
    refine ⟨hpar, ?_⟩
    simp [CameraOptimizer.get_param_groups, hmode, hpar]
  · intro t r hmode ht hr
    have hpar : s.parameters = [t, r] := by
      simp [CameraOptimizer.parameters, ht, hr]
    refine ⟨hpar, ?_⟩
    simp [CameraOptimizer.get_param_groups, hmode, hpar]
  · intro hen
    obtain ⟨hla, haa⟩ := hV.1 hen
    rw [Option.isNone_iff_eq_none] at hla haa
    have hpar : sv.parameters = [] := by
      simp [CameraVelocityOptimizer.parameters, hla, haa]
    refine ⟨hpar, ?_⟩
    simp [CameraVelocityOptimizer.get_param_groups, hen, hpar]
  · intro lin ang hen hla haa
    have hpar : sv.parameters = [lin, ang] := by
      simp [CameraVelocityOptimizer.parameters, hla, haa]
    refine ⟨hpar, ?_⟩
    simp [CameraVelocityOptimizer.get_param_groups, hen, hpar]

/-- Witness for claim C9's theorem on freshly constructed layers of both kinds
in both states. -/
theorem get_param_groups_spec_witness :
    (CameraOptimizer.parameters (CameraOptimizer.init offCfg 2 none) = [] ∧
      CameraOptimizer.get_param_groups (CameraOptimizer.init offCfg 2 none) pgEmpty =
        some pgEmpty) ∧
    (CameraOptimizer.parameters sActive = [fun _ => vec3Zero, fun _ => vec3Zero] ∧
      CameraOptimizer.get_param_groups sActive pgEmpty =
        some (dictSet (dictSet pgEmpty "camera_opt_trans" [fun _ => vec3Zero])
          "camera_opt_rot" [fun _ => vec3Zero])) ∧
    (CameraVelocityOptimizer.parameters sVelPlain = [] ∧
      CameraVelocityOptimizer.get_param_groups sVelPlain pgEmpty = some pgEmpty) ∧
    (CameraVelocityOptimizer.parameters sVelOn = [fun _ => vec3Zero, fun _ => vec3Zero] ∧
      CameraVelocityOptimizer.get_param_groups sVelOn pgEmpty =
        some (dictSet (dictSet pgEmpty "camera_velocity_opt_linear" [fun _ => vec3Zero])
          "camera_velocity_opt_angular" [fun _ => vec3Zero])) := by
  have h := get_param_groups_spec (CameraOptimizer.init offCfg 2 none) sVelPlain
    pgEmpty pgEmpty (by decide) (by decide)
  have h2 := get_param_groups_spec sActive sVelOn pgEmpty pgEmpty (by decide) (by decide)
  exact ⟨h.1 rfl,
    h2.2.1 (fun _ => vec3Zero) (fun _ => vec3Zero) (by decide) rfl rfl,
    h.2.2.1 rfl,
    h2.2.2.2 (fun _ => vec3Zero) (fun _ => vec3Zero) rfl rfl rfl⟩

/-- Claim C10: the velocity layer never consults the non-trainable index set:
evaluation is unchanged under any replacement of the stored set, and an enabled
layer adds the learned adjustment even for a camera whose index is in the
set. -/
theorem velocity_ignores_non_trainable_mask (s : CameraVelocityOptimizer)
    (camera : Camera) (m mo : Option (List ℕ)) :
    (CameraVelocityOptimizer.apply_to_camera_velocity
        { s with non_trainable_camera_indices := m } camera =
      CameraVelocityOptimizer.apply_to_camera_velocity
        { s with non_trainable_camera_indices := mo } camera) ∧
    (∀ (ms : List ℕ) (idx : ℕ) (lin ang : ℕ → Vec3) (b : Vec6),
      s.non_trainable_camera_indices = some ms → idx ∈ ms →
      s.config.enabled = true → camera.cam_idx = some idx →
      s.linear_velocity_adjustment = some lin →
      s.angular_velocity_adjustment = some ang →
      CameraVelocityOptimizer.velBase s camera = some b →
      CameraVelocityOptimizer.apply_to_camera_velocity s camera =
        some (fun i => b i + hstack (lin idx) (ang idx) i)) := by
  constructor
  · rfl
  · intro ms idx lin ang b hms hmem hen hidx hlin hang hbase
    simp [CameraVelocityOptimizer.apply_to_camera_velocity, hbase, hen, hidx, hlin, hang]

/-- Witness for claim C10's theorem: an enabled layer whose non-trainable set
contains camera 0 still adds the adjustment for camera 0. -/
theorem velocity_ignores_non_trainable_mask_witness :
    (CameraVelocityOptimizer.apply_to_camera_velocity
        { sVelMask with non_trainable_camera_indices := some [0] } camIdx0 =
      CameraVelocityOptimizer.apply_to_camera_velocity
        { sVelMask with non_trainable_camera_indices := none } camIdx0) ∧
    (CameraVelocityOptimizer.apply_to_camera_velocity sVelMask camIdx0 =
      some (fun i => vel6 i +
        hstack ((fun _ => vec3Zero) 0) ((fun _ => vec3Zero) 0) i)) := by
  have h := velocity_ignores_non_trainable_mask sVelMask camIdx0 (some [0]) none
  exact ⟨h.1, h.2 [0] 0 (fun _ => vec3Zero) (fun _ => vec3Zero) vel6 rfl (by decide)
    rfl rfl rfl rfl rfl⟩

end Nerfstudio
